import Mathlib

/-!
Shallow embedding of the MAX Focus Pods bot services
(`src/services/gamification.ts`, the Pomodoro service, the Pod service,
`src/types/index.ts`) over an explicit in-memory store mirroring the
PostgreSQL tables.

Modelling conventions:
* JS numbers that only ever hold non-negative integers become `Nat`;
  quantities that the code can make negative or that mix signs become `Int`;
  the floating-point expressions `actualMinutes / duration`, the reward
  formula and `Math.round` are modelled over `ℚ` with
  `jsRound x = ⌊x + 1/2⌋` (JS `Math.round` rounds half toward +∞) and
  `Math.floor` of a real division as `Int.fdiv`.
* Wall-clock values are threaded as explicit parameters: `nowMs` is
  `Date.now()` in milliseconds, `today` is the calendar-day index that the
  source compares via `toDateString()` (so `yesterday = today - 1`).
* Random values (`crypto.randomUUID()`, `crypto.randomBytes`) are threaded
  as explicit parameters.  Fields that no embedded operation reads
  (`createdAt`, `sentAt`, `joinedAt`, notification ids, `qrCode`) are
  omitted from the records.
* `db.updateX(id, partial)` is modelled as mapping the stored rows with a
  function applying exactly the fields the call site sets; every call site
  keeps the row id unchanged, matching the SQL `UPDATE ... WHERE id = $n`.
-/

namespace MaxFocus

inductive TaskAction where
  | completed
  | split
  | postponed
  | skipped
deriving DecidableEq

inductive NotificationType where
  | dailyReminder
  | achievementUnlocked
  | streakWarning
  | weeklyStats
  | podInvite
  | podStarted
  | podCompleted
deriving DecidableEq

inductive PodStatus where
  | waiting
  | active
  | completed
  | cancelled
deriving DecidableEq

inductive ReqType where
  | pomodoros
  | tasks
  | streak
  | pods
  | focusHours
deriving DecidableEq

structure AchievementRequirement where
  type : ReqType
  count : Nat
deriving DecidableEq

structure Achievement where
  id : String
  name : String
  description : String
  icon : String
  requirement : AchievementRequirement
  reward : Nat
deriving DecidableEq

/-- The static achievement catalog `ACHIEVEMENTS` from `src/types/index.ts`. -/
def ACHIEVEMENTS : List Achievement := [
  { id := "first_focus", name := "First Focus",
    description := "Завершил первую Pomodoro-сессию", icon := "🎯",
    requirement := { type := .pomodoros, count := 1 }, reward := 5 },
  { id := "focus_streak_3", name := "Focus Streak 3",
    description := "3 дня подряд с фокус-сессиями", icon := "🔥",
    requirement := { type := .streak, count := 3 }, reward := 10 },
  { id := "focus_streak_7", name := "Focus Streak 7",
    description := "7 дней подряд с фокус-сессиями", icon := "🔥🔥",
    requirement := { type := .streak, count := 7 }, reward := 25 },
  { id := "task_master", name := "Task Master",
    description := "Выполнил 10 задач", icon := "✅",
    requirement := { type := .tasks, count := 10 }, reward := 15 },
  { id := "pod_pioneer", name := "Pod Pioneer",
    description := "Создал первый Pod", icon := "🚀",
    requirement := { type := .pods, count := 1 }, reward := 10 },
  { id := "early_bird", name := "Early Bird",
    description := "5 часов фокуса", icon := "🌅",
    requirement := { type := .focusHours, count := 5 }, reward := 20 },
  { id := "focus_master", name := "Focus Master",
    description := "25 Pomodoro-сессий", icon := "🏆",
    requirement := { type := .pomodoros, count := 25 }, reward := 50 },
  { id := "marathon_runner", name := "Marathon Runner",
    description := "50 часов фокуса", icon := "🎖️",
    requirement := { type := .focusHours, count := 50 }, reward := 100 }
]

structure User where
  id : String
  maxUserId : String
  name : String
  focusCoins : Int
  totalPomodoros : Nat
  totalFocusMinutes : Int
  completedTasks : Nat
  currentStreak : Nat
  bestStreak : Nat
  /-- Calendar-day index of `lastActiveDate` (the source stores an ISO string
  and only ever compares it through `toDateString()`). -/
  lastActiveDate : Nat
  achievements : List String
deriving DecidableEq

structure PomodoroSession where
  id : String
  userId : String
  /-- Minutes. -/
  duration : Nat
  /-- Milliseconds since epoch. -/
  startTime : Nat
  endTime : Option Nat
  completed : Bool
  taskAction : Option TaskAction
  podId : Option String
  reward : Int
deriving DecidableEq

structure PodParticipant where
  userId : String
  userName : String
  isCreator : Bool
  taskCompleted : Option Bool
  taskAction : Option TaskAction
deriving DecidableEq

structure Pod where
  id : String
  inviteCode : String
  creatorId : String
  title : String
  duration : Nat
  participants : List PodParticipant
  startTime : Option Nat
  endTime : Option Nat
  status : PodStatus
  shareLink : String
deriving DecidableEq

structure UserStats where
  userId : String
  weekPomodoros : Nat
  weekFocusMinutes : Int
  weekTasksCompleted : Nat
  weekFocusCoins : Int
  todayPomodoros : Nat
  todayFocusMinutes : Int
deriving DecidableEq

structure Notification where
  userId : String
  type : NotificationType
  message : String
  read : Bool
deriving DecidableEq

/-- In-memory image of the PostgreSQL tables used by the services. -/
structure Store where
  users : List User
  sessions : List PomodoroSession
  pods : List Pod
  stats : List UserStats
  notifications : List Notification
deriving DecidableEq

inductive ServiceError where
  | userNotFound
  | sessionNotFound
  | alreadyActive
  | alreadyCompleted
  | updateFailed
  | podNotFound
deriving DecidableEq

/-! ### Storage layer (`src/storage/postgres.ts`) -/

def getUser (st : Store) (userId : String) : Option User :=
  st.users.find? (fun u => u.id == userId)

/-- `db.updateUser(userId, updates)`: the call-site specific `updates`
object is passed as the row transformer `f`. -/
def updateUser (st : Store) (userId : String) (f : User → User) : Store :=
  { st with users := st.users.map (fun u => if u.id == userId then f u else u) }

def getSession (st : Store) (sessionId : String) : Option PomodoroSession :=
  st.sessions.find? (fun s => s.id == sessionId)

def createSession (st : Store) (s : PomodoroSession) : Store :=
  { st with sessions := st.sessions ++ [s] }

/-- `db.updateSession(sessionId, updates)`, returning the updated row
(`RETURNING *`) or `none` when no row matches. -/
def updateSession (st : Store) (sessionId : String) (f : PomodoroSession → PomodoroSession) :
    Option PomodoroSession × Store :=
  let sessions := st.sessions.map (fun s => if s.id == sessionId then f s else s)
  (sessions.find? (fun s => s.id == sessionId), { st with sessions := sessions })

/-- `db.getUserSessions(userId)` (row order does not matter to the
embedded operations). -/
def getUserSessions (st : Store) (userId : String) : List PomodoroSession :=
  st.sessions.filter (fun s => s.userId == userId)

def getPod (st : Store) (podId : String) : Option Pod :=
  st.pods.find? (fun p => p.id == podId)

def createPodRow (st : Store) (p : Pod) : Store :=
  { st with pods := st.pods ++ [p] }

def updatePod (st : Store) (podId : String) (f : Pod → Pod) : Store :=
  { st with pods := st.pods.map (fun p => if p.id == podId then f p else p) }

/-- `db.getUserPods(userId)`: pods whose participants JSON contains the user. -/
def getUserPods (st : Store) (userId : String) : List Pod :=
  st.pods.filter (fun p => p.participants.any (fun q => q.userId == userId))

def getUserStats (st : Store) (userId : String) : Option UserStats :=
  st.stats.find? (fun s => s.userId == userId)

/-- `db.updateUserStats(userId, stats)`: upsert of the stats row. -/
def putUserStats (st : Store) (userId : String) (s : UserStats) : Store :=
  if (st.stats.find? (fun r => r.userId == userId)).isSome then
    { st with stats := st.stats.map (fun r => if r.userId == userId then s else r) }
  else
    { st with stats := st.stats ++ [s] }

def createNotification (st : Store) (n : Notification) : Store :=
  { st with notifications := st.notifications ++ [n] }

/-! ### Gamification service (`src/services/gamification.ts`) -/

/-- JS `Math.round`: round half toward positive infinity. -/
def jsRound (x : ℚ) : ℤ := ⌊x + 1/2⌋

/-- `GamificationService.calculatePomodoroReward`. -/
def calculatePomodoroReward (baseReward : ℚ) (streak : Nat) (inPod : Bool) : ℤ :=
  let reward := baseReward
  let streakBonus : ℚ := min (((streak / 3 : ℕ) : ℚ) * (1/10)) (1/2)
  let reward := reward + baseReward * streakBonus
  let reward := if inPod then reward + baseReward * (1/2) else reward
  jsRound reward

/-- `GamificationService.awardFocusCoins`. -/
def awardFocusCoins (st : Store) (userId : String) (amount : Int) :
    Except ServiceError Int × Store :=
  match getUser st userId with
  | none => (.error .userNotFound, st)
  | some user =>
    let newBalance := user.focusCoins + amount
    ((.ok newBalance), updateUser st userId (fun u => { u with focusCoins := newBalance }))

/-- `GamificationService.unlockAchievement`. -/
def unlockAchievement (st : Store) (userId achievementId : String) :
    Except ServiceError Bool × Store :=
  match getUser st userId with
  | none => (.error .userNotFound, st)
  | some user =>
    if user.achievements.contains achievementId then ((.ok false), st)
    else
      match ACHIEVEMENTS.find? (fun a => a.id == achievementId) with
      | none => ((.ok false), st)
      | some achievement =>
        let newAchievements := user.achievements ++ [achievementId]
        let st1 := updateUser st userId (fun u => { u with achievements := newAchievements })
        match awardFocusCoins st1 userId (achievement.reward : Int) with
        | (.error e, st2) => (.error e, st2)
        | (.ok _, st2) =>
          let st3 := createNotification st2 {
            userId := userId, type := .achievementUnlocked,
            message := "🏆 Разблокировано: " ++ achievement.icon ++ " " ++
              achievement.name ++ "! +" ++ toString achievement.reward ++ " FocusCoins",
            read := false }
          ((.ok true), st3)

/-- The `for` loop bodies of `checkStreakAchievements` (a sequence of
`unlockAchievement` calls whose boolean results are discarded). -/
def unlockList (st : Store) (userId : String) : List String → Except ServiceError Unit × Store
  | [] => ((.ok ()), st)
  | aid :: rest =>
    match unlockAchievement st userId aid with
    | (.error e, st1) => (.error e, st1)
    | (.ok _, st1) => unlockList st1 userId rest

/-- `GamificationService.checkStreakAchievements`. -/
def checkStreakAchievements (st : Store) (userId : String) (streak : Nat) :
    Except ServiceError Unit × Store :=
  unlockList st userId
    (((ACHIEVEMENTS.filter (fun a =>
        a.requirement.type == ReqType.streak && a.requirement.count == streak)).map
      (fun a => a.id)))

/-- `GamificationService.updateStreak`; `today` is the calendar day of
`new Date()`, so the `toDateString()` of `Date.now() - 24h` is `today - 1`. -/
def updateStreak (st : Store) (userId : String) (today : Nat) :
    Except ServiceError (Nat × Nat) × Store :=
  match getUser st userId with
  | none => (.error .userNotFound, st)
  | some user =>
    let yesterday := today - 1
    if user.lastActiveDate == today then
      ((.ok (user.currentStreak, user.bestStreak)), st)
    else
      let currentStreak :=
        if user.lastActiveDate == yesterday then user.currentStreak + 1 else 1
      let bestStreak :=
        if user.bestStreak < currentStreak then currentStreak else user.bestStreak
      let st1 := updateUser st userId (fun u =>
        { u with currentStreak := currentStreak, bestStreak := bestStreak,
                 lastActiveDate := today })
      match checkStreakAchievements st1 userId currentStreak with
      | (.error e, st2) => (.error e, st2)
      | (.ok _, st2) => ((.ok (currentStreak, bestStreak)), st2)

/-- `GamificationService.checkAchievementRequirement` (the store is needed
for the `pods` requirement, which queries `db.getUserPods`). -/
def checkAchievementRequirement (st : Store) (user : User) (a : Achievement) : Bool :=
  match a.requirement.type with
  | .pomodoros => decide (a.requirement.count ≤ user.totalPomodoros)
  | .tasks => decide (a.requirement.count ≤ user.completedTasks)
  | .streak => decide (a.requirement.count ≤ user.currentStreak)
  | .focusHours => decide ((a.requirement.count : Int) ≤ user.totalFocusMinutes.fdiv 60)
  | .pods =>
    decide (a.requirement.count ≤
      ((getUserPods st user.id).filter (fun p => p.creatorId == user.id)).length)

/-- The loop of `checkAchievements`: `user` is the snapshot fetched once at
entry, the store is threaded through the `unlockAchievement` calls. -/
def checkAchievementsAux (user : User) (userId : String) :
    Store → List Achievement → Except ServiceError (List String) × Store
  | st, [] => ((.ok []), st)
  | st, a :: rest =>
    if user.achievements.contains a.id then checkAchievementsAux user userId st rest
    else if checkAchievementRequirement st user a then
      match unlockAchievement st userId a.id with
      | (.error e, st1) => (.error e, st1)
      | (.ok unlocked, st1) =>
        match checkAchievementsAux user userId st1 rest with
        | (.error e, st2) => (.error e, st2)
        | (.ok ids, st2) => ((.ok (if unlocked then a.id :: ids else ids)), st2)
    else checkAchievementsAux user userId st rest

/-- `GamificationService.checkAchievements`. -/
def checkAchievements (st : Store) (userId : String) :
    Except ServiceError (List String) × Store :=
  match getUser st userId with
  | none => (.error .userNotFound, st)
  | some user => checkAchievementsAux user userId st ACHIEVEMENTS

/-! ### Pomodoro service (`PomodoroService`) -/

/-- The predicate of `sessions.find(s => !s.completed && !s.endTime)`:
a session that is still open. -/
def openSession (s : PomodoroSession) : Bool :=
  !s.completed && s.endTime.isNone

/-- `PomodoroService.startSession`; `newSessionId` is the fresh
`crypto.randomUUID()`, `nowMs` the start timestamp, `today` the calendar
day handed down to `updateStreak`. -/
def startSession (st : Store) (userId : String) (duration : Nat) (podId : Option String)
    (newSessionId : String) (nowMs : Nat) (today : Nat) :
    Except ServiceError PomodoroSession × Store :=
  let existingSessions := getUserSessions st userId
  match existingSessions.find? (fun s => openSession s) with
  | some _ => (.error .alreadyActive, st)
  | none =>
    match getUser st userId with
    | none => (.error .userNotFound, st)
    | some _ =>
      let session : PomodoroSession := {
        id := newSessionId, userId := userId, duration := duration,
        startTime := nowMs, endTime := none, completed := false,
        taskAction := none, podId := podId, reward := 0 }
      let st1 := createSession st session
      match updateStreak st1 userId today with
      | (.error e, st2) => (.error e, st2)
      | (.ok _, st2) => ((.ok session), st2)

structure CompleteResult where
  session : PomodoroSession
  reward : Int
  achievements : List String
  actualMinutes : Int
deriving DecidableEq

/-- `PomodoroService.updateUserStats` (private). -/
def updateUserStats (st : Store) (userId : String) (minutes : Int) (coins : Int) : Store :=
  let stats :=
    match getUserStats st userId with
    | some s => s
    | none => { userId := userId, weekPomodoros := 0, weekFocusMinutes := 0,
                weekTasksCompleted := 0, weekFocusCoins := 0,
                todayPomodoros := 0, todayFocusMinutes := 0 }
  let stats := { stats with
    todayPomodoros := stats.todayPomodoros + 1,
    todayFocusMinutes := stats.todayFocusMinutes + minutes,
    weekPomodoros := stats.weekPomodoros + 1,
    weekFocusMinutes := stats.weekFocusMinutes + minutes,
    weekFocusCoins := stats.weekFocusCoins + coins }
  putUserStats st userId stats

/-- The tail of `completeSession` shared by both branches: the
`db.updateSession` write and the `if (!updated) throw` guard. -/
def finishSession (st : Store) (sessionId : String) (taskAction : Option TaskAction)
    (reward : Int) (achievements : List String) (actualMinutes : Int) (nowMs : Nat) :
    Except ServiceError CompleteResult × Store :=
  match updateSession st sessionId (fun s =>
      { s with completed := true, endTime := some nowMs,
               taskAction := taskAction, reward := reward }) with
  | (none, st1) => (.error .updateFailed, st1)
  | (some updated, st1) =>
    ((.ok { session := updated, reward := reward, achievements := achievements,
            actualMinutes := actualMinutes }), st1)

/-- `PomodoroService.completeSession`. -/
def completeSession (st : Store) (sessionId : String) (taskAction : Option TaskAction)
    (isEarlyCompletion : Bool) (nowMs : Nat) :
    Except ServiceError CompleteResult × Store :=
  match getSession st sessionId with
  | none => (.error .sessionNotFound, st)
  | some session =>
    if session.completed then (.error .alreadyCompleted, st)
    else
      match getUser st session.userId with
      | none => (.error .userNotFound, st)
      | some user =>
        let actualMinutes : Int := ((nowMs : Int) - (session.startTime : Int)).fdiv 60000
        let completionRate : ℚ := (actualMinutes : ℚ) / (session.duration : ℚ)
        if (9/10 : ℚ) ≤ completionRate ∨ isEarlyCompletion = false then
          let baseReward : ℚ := 1
          let inPod := session.podId.isSome
          let reward := calculatePomodoroReward baseReward user.currentStreak inPod
          let st1 := updateUser st session.userId (fun u => { u with
            totalPomodoros := user.totalPomodoros + 1,
            totalFocusMinutes := user.totalFocusMinutes + actualMinutes,
            focusCoins := user.focusCoins + reward })
          let st2 := updateUserStats st1 session.userId actualMinutes reward
          match checkAchievements st2 session.userId with
          | (.error e, st3) => (.error e, st3)
          | (.ok achievements, st3) =>
            finishSession st3 sessionId taskAction reward achievements actualMinutes nowMs
        else
          let st1 := updateUser st session.userId (fun u => { u with
            totalFocusMinutes := user.totalFocusMinutes + actualMinutes })
          finishSession st1 sessionId taskAction 0 [] actualMinutes nowMs

/-- `PomodoroService.cancelSession`. -/
def cancelSession (st : Store) (sessionId : String) (nowMs : Nat) : Bool × Store :=
  match getSession st sessionId with
  | none => (false, st)
  | some _ =>
    let upd := updateSession st sessionId (fun s =>
      { s with completed := false, endTime := some nowMs })
    (true, upd.2)

/-! ### Pod service (`PodService`) -/

/-- Default of `process.env.BOT_USERNAME`. -/
def botUsername : String := "t257_hakaton_bot"

/-- One hex digit of `Buffer.toString('hex')` followed by `toUpperCase()`. -/
def hexDigit (n : Nat) : Char :=
  if n < 10 then Char.ofNat (48 + n) else Char.ofNat (55 + n)

def byteHex (b : Nat) : List Char :=
  [hexDigit (b / 16 % 16), hexDigit (b % 16)]

/-- `crypto.randomBytes(k).toString('hex').toUpperCase()` applied to the
byte list drawn from the RNG. -/
def inviteCodeOfBytes (bytes : List Nat) : String :=
  String.mk (bytes.map byteHex).flatten

/-- `PodService.createPod`; `podId` is the fresh `crypto.randomUUID()`,
`randomBytes` the 4 bytes drawn by `crypto.randomBytes(4)`. -/
def createPod (st : Store) (creatorId creatorName : String) (duration : Nat)
    (title : Option String) (podId : String) (randomBytes : List Nat) :
    Except ServiceError (Pod × String) × Store :=
  let inviteCode := inviteCodeOfBytes randomBytes
  let shareLink := "https://max.ru/" ++ botUsername ++ "?start=pod_" ++ inviteCode
  let creator : PodParticipant := {
    userId := creatorId, userName := creatorName, isCreator := true,
    taskCompleted := none, taskAction := none }
  let podTitle :=
    match title with
    | some t => if t == "" then "Фокус-Pod от " ++ creatorName else t
    | none => "Фокус-Pod от " ++ creatorName
  let pod : Pod := {
    id := podId, inviteCode := inviteCode, creatorId := creatorId,
    title := podTitle, duration := duration, participants := [creator],
    startTime := none, endTime := none, status := .waiting,
    shareLink := shareLink }
  let st1 := createPodRow st pod
  match checkAchievements st1 creatorId with
  | (.error e, st2) => (.error e, st2)
  | (.ok _, st2) => ((.ok (pod, inviteCode)), st2)

/-- The notification loop of `cancelPod` over the participants. -/
def cancelPodNotify (pod : Pod) : List PodParticipant → Store → Store
  | [], st => st
  | q :: rest, st =>
    let st1 :=
      if q.userId == pod.creatorId then st
      else createNotification st {
        userId := q.userId, type := .podInvite,
        message := "Pod \"" ++ pod.title ++ "\" был отменён", read := false }
    cancelPodNotify pod rest st1

/-- `PodService.cancelPod` (note: the source sets `CANCELLED` without
inspecting the current status, and returns the pod as fetched before the
update). -/
def cancelPod (st : Store) (podId : String) : Except ServiceError Pod × Store :=
  match getPod st podId with
  | none => (.error .podNotFound, st)
  | some pod =>
    let st1 := updatePod st podId (fun p => { p with status := .cancelled })
    let st2 := cancelPodNotify pod pod.participants st1
    ((.ok pod), st2)

/-! ### Derived notions used by the claims -/

/-- Number of open sessions (`!completed && !endTime`) a user has in a
session table. -/
def openCount (l : List PomodoroSession) (u : String) : Nat :=
  (l.filter (fun s => openSession s && s.userId == u)).length

/-- At most one open session per user. -/
def sessionInvariant (st : Store) : Prop :=
  ∀ u, openCount st.sessions u ≤ 1

/-- The fields of a user record that the achievement machinery never
writes (everything except `focusCoins` and `achievements`). -/
def userCore (u : User) : String × Nat × Int × Nat × Nat × Nat × Nat :=
  (u.id, u.totalPomodoros, u.totalFocusMinutes, u.completedTasks,
   u.currentStreak, u.bestStreak, u.lastActiveDate)

/-- The store tables a gamification call never writes. -/
def StructFrame (st st' : Store) : Prop :=
  st'.sessions = st.sessions ∧ st'.pods = st.pods ∧ st'.stats = st.stats

/-- Every user's `userCore` image under `getUser` is unchanged. -/
def CorePreserved (st st' : Store) : Prop :=
  ∀ uid, (getUser st' uid).map userCore = (getUser st uid).map userCore

/-! ### Concrete witness data -/

def aliceW : User :=
  { id := "u1", maxUserId := "m1", name := "Alice", focusCoins := 0,
    totalPomodoros := 0, totalFocusMinutes := 0, completedTasks := 0,
    currentStreak := 0, bestStreak := 0, lastActiveDate := 0, achievements := [] }

/-- A session cancelled by `cancelSession`: `completed = false` and
`endTime` set. -/
def cancelledSessionW : PomodoroSession :=
  { id := "s1", userId := "u1", duration := 25,
    startTime := 0, endTime := some 300000, completed := false, taskAction := none,
    podId := none, reward := 0 }

def openSessionW : PomodoroSession :=
  { id := "s2", userId := "u1", duration := 25,
    startTime := 0, endTime := none, completed := false, taskAction := none,
    podId := none, reward := 0 }

def completedSessionW : PomodoroSession :=
  { id := "s3", userId := "u1", duration := 25,
    startTime := 0, endTime := some 1500000, completed := true, taskAction := none,
    podId := none, reward := 1 }

def completedPodW : Pod :=
  { id := "p1", inviteCode := "AABBCCDD", creatorId := "u1",
    title := "Deep work", duration := 25,
    participants := [{ userId := "u1", userName := "Alice", isCreator := true,
                       taskCompleted := none, taskAction := none }],
    startTime := some 0, endTime := some 1500000, status := .completed,
    shareLink := "https://max.ru/t257_hakaton_bot?start=pod_AABBCCDD" }

/-- Store for the C4 counterexample: a cancelled session and a completed
pod. -/
def stC4 : Store :=
  { users := [aliceW], sessions := [cancelledSessionW], pods := [completedPodW],
    stats := [], notifications := [] }

/-- Store for the C8 failing input: a pod with invite code `"AABBCCDD"`
already exists. -/
def stC8 : Store :=
  { users := [aliceW], sessions := [], pods := [completedPodW],
    stats := [], notifications := [] }

/-- Store for the C9 counterexample: a user whose streak is 4, past the
`focus_streak_3` threshold without currently equalling it. -/
def streakUserW : User :=
  { aliceW with id := "u9", currentStreak := 4 }

def stC9 : Store :=
  { users := [streakUserW], sessions := [], pods := [], stats := [],
    notifications := [] }

/-- Store with one open session, for exercising the invariant theorems. -/
def stOpenW : Store :=
  { users := [aliceW], sessions := [openSessionW], pods := [], stats := [],
    notifications := [] }

/-- Store with one completed session, for the idempotence theorems. -/
def stDoneW : Store :=
  { users := [aliceW], sessions := [completedSessionW], pods := [], stats := [],
    notifications := [] }

/-- User who already unlocked `first_focus`, for the C7 witness. -/
def unlockedUserW : User :=
  { aliceW with id := "u7", achievements := ["first_focus"], focusCoins := 5 }

def stC7 : Store :=
  { users := [unlockedUserW], sessions := [], pods := [], stats := [],
    notifications := [] }

/-- User for the C5 witness: last active yesterday, mid-streak. -/
def streakUser5W : User :=
  { aliceW with id := "u5", currentStreak := 2, bestStreak := 6, lastActiveDate := 4 }

def stStreakW : Store :=
  { users := [streakUser5W], sessions := [], pods := [], stats := [],
    notifications := [] }

/-- The `focus_streak_3` catalog entry, for exercising the requirement
check. -/
def focusStreak3W : Achievement :=
  { id := "focus_streak_3", name := "Focus Streak 3",
    description := "3 дня подряд с фокус-сессиями", icon := "🔥",
    requirement := { type := .streak, count := 3 }, reward := 10 }

end MaxFocus

deriving instance DecidableEq for Except

namespace MaxFocus

/-! ### Helper lemmas -/

theorem find?_map_pres {α : Type} (g : α → α) (p : α → Bool)
    (h : ∀ a, p (g a) = p a) :
    ∀ l : List α, (l.map g).find? p = (l.find? p).map g := by
  intro l
  induction l with
  | nil => rfl
  | cons a t ih =>
    simp only [List.map_cons]
    cases hpa : p a
    · rw [List.find?_cons_of_neg _ (by rw [h a, hpa]; exact Bool.false_ne_true),
          List.find?_cons_of_neg _ (by rw [hpa]; exact Bool.false_ne_true)]
      exact ih
    · rw [List.find?_cons_of_pos _ (by rw [h a, hpa]),
          List.find?_cons_of_pos _ hpa]
      rfl

theorem length_filter_map_le {α : Type} (g : α → α) (p : α → Bool)
    (h : ∀ a, p (g a) = true → p a = true) :
    ∀ l : List α, ((l.map g).filter p).length ≤ (l.filter p).length := by
  intro l
  induction l with
  | nil => exact Nat.le_refl 0
  | cons a t ih =>
    simp only [List.map_cons, List.filter_cons]
    cases hga : p (g a)
    · cases hpa : p a
      · exact ih
      · simpa using Nat.le_succ_of_le ih
    · rw [h a hga]
      simpa using Nat.succ_le_succ ih

theorem getUser_updateUser (st : Store) (uid uid' : String) (f : User → User)
    (hf : ∀ u, (f u).id = u.id) :
    getUser (updateUser st uid f) uid' =
      (getUser st uid').map (fun u => if u.id == uid then f u else u) := by
  unfold getUser updateUser
  exact find?_map_pres _ _
    (fun u => by cases hu : (u.id == uid) <;> simp [hu, hf u]) st.users

theorem getUser_updateUser_self (st : Store) (uid : String) (f : User → User)
    (u : User) (hf : ∀ v, (f v).id = v.id) (hu : getUser st uid = some u) :
    getUser (updateUser st uid f) uid = some (f u) := by
  rw [getUser_updateUser st uid uid f hf, hu]
  have hu' : List.find? (fun v => v.id == uid) st.users = some u := hu
  have hid : (u.id == uid) = true := by
    have h := List.find?_some hu'
    simpa using h
  show some (if (u.id == uid) = true then f u else u) = some (f u)
  rw [if_pos hid]

theorem structFrame_refl (st : Store) : StructFrame st st :=
  ⟨rfl, rfl, rfl⟩

theorem structFrame_trans {st1 st2 st3 : Store}
    (h1 : StructFrame st1 st2) (h2 : StructFrame st2 st3) : StructFrame st1 st3 :=
  ⟨h2.1.trans h1.1, h2.2.1.trans h1.2.1, h2.2.2.trans h1.2.2⟩

theorem corePreserved_refl (st : Store) : CorePreserved st st := fun _ => rfl

theorem corePreserved_trans {st1 st2 st3 : Store}
    (h1 : CorePreserved st1 st2) (h2 : CorePreserved st2 st3) : CorePreserved st1 st3 :=
  fun uid => (h2 uid).trans (h1 uid)

theorem corePreserved_isSome {st st' : Store} (h : CorePreserved st st') (uid : String) :
    (getUser st' uid).isSome = (getUser st uid).isSome := by
  have := h uid
  cases h1 : getUser st uid <;> cases h2 : getUser st' uid <;>
    rw [h1, h2] at this <;> simp_all

theorem corePreserved_updateUser (st : Store) (uid : String) (f : User → User)
    (hf : ∀ u, userCore (f u) = userCore u) : CorePreserved st (updateUser st uid f) := by
  intro uid'
  have hid : ∀ u, (f u).id = u.id := fun u => congrArg Prod.fst (hf u)
  rw [getUser_updateUser st uid uid' f hid]
  cases getUser st uid' with
  | none => rfl
  | some u =>
    show some (userCore (if (u.id == uid) = true then f u else u)) = some (userCore u)
    cases hu : (u.id == uid) <;> simp [hf u]

theorem updateUser_structFrame (st : Store) (uid : String) (f : User → User) :
    StructFrame st (updateUser st uid f) :=
  ⟨rfl, rfl, rfl⟩

theorem createNotification_structFrame (st : Store) (n : Notification) :
    StructFrame st (createNotification st n) :=
  ⟨rfl, rfl, rfl⟩

theorem createNotification_corePreserved (st : Store) (n : Notification) :
    CorePreserved st (createNotification st n) :=
  fun _ => rfl

theorem awardFocusCoins_structFrame (st : Store) (uid : String) (amount : Int) :
    StructFrame st (awardFocusCoins st uid amount).2 := by
  unfold awardFocusCoins
  cases h : getUser st uid
  · exact structFrame_refl st
  · exact updateUser_structFrame st uid _

theorem awardFocusCoins_corePreserved (st : Store) (uid : String) (amount : Int) :
    CorePreserved st (awardFocusCoins st uid amount).2 := by
  unfold awardFocusCoins
  cases h : getUser st uid
  · exact corePreserved_refl st
  · exact corePreserved_updateUser st uid _ (fun u => rfl)

theorem unlockAchievement_structFrame (st : Store) (uid aid : String) :
    StructFrame st (unlockAchievement st uid aid).2 := by
  simp only [unlockAchievement]
  split
  · exact structFrame_refl st
  · rename_i user hu
    split
    · exact structFrame_refl st
    · split
      · exact structFrame_refl st
      · rename_i achievement hach
        split
        · rename_i e st2 haw
          have h2 := awardFocusCoins_structFrame (updateUser st uid
            (fun u => { u with achievements := user.achievements ++ [aid] }))
            uid (achievement.reward : Int)
          rw [haw] at h2
          exact structFrame_trans (updateUser_structFrame st uid _) h2
        · rename_i v st2 haw
          have h2 := awardFocusCoins_structFrame (updateUser st uid
            (fun u => { u with achievements := user.achievements ++ [aid] }))
            uid (achievement.reward : Int)
          rw [haw] at h2
          exact structFrame_trans (updateUser_structFrame st uid _)
            (structFrame_trans h2 (createNotification_structFrame st2 _))

theorem unlockAchievement_corePreserved (st : Store) (uid aid : String) :
    CorePreserved st (unlockAchievement st uid aid).2 := by
  simp only [unlockAchievement]
  split
  · exact corePreserved_refl st
  · rename_i user hu
    split
    · exact corePreserved_refl st
    · split
      · exact corePreserved_refl st
      · rename_i achievement hach
        split
        · rename_i e st2 haw
          have h2 := awardFocusCoins_corePreserved (updateUser st uid
            (fun u => { u with achievements := user.achievements ++ [aid] }))
            uid (achievement.reward : Int)
          rw [haw] at h2
          exact corePreserved_trans
            (corePreserved_updateUser st uid
              (fun u => { u with achievements := user.achievements ++ [aid] })
              (fun u => rfl)) h2
        · rename_i v st2 haw
          have h2 := awardFocusCoins_corePreserved (updateUser st uid
            (fun u => { u with achievements := user.achievements ++ [aid] }))
            uid (achievement.reward : Int)
          rw [haw] at h2
          exact corePreserved_trans
            (corePreserved_updateUser st uid
              (fun u => { u with achievements := user.achievements ++ [aid] })
              (fun u => rfl))
            (corePreserved_trans h2 (createNotification_corePreserved st2 _))


theorem awardFocusCoins_ok (st : Store) (uid : String) (amount : Int)
    (h : (getUser st uid).isSome) :
    ∃ n st', awardFocusCoins st uid amount = ((Except.ok n), st') := by
  rcases ho : getUser st uid with _ | user
  · rw [ho] at h; exact absurd h (by simp)
  · refine ⟨user.focusCoins + amount,
      updateUser st uid (fun u => { u with focusCoins := user.focusCoins + amount }), ?_⟩
    simp only [awardFocusCoins, ho]

theorem unlockAchievement_ok (st : Store) (uid aid : String)
    (h : (getUser st uid).isSome) :
    ∃ b st', unlockAchievement st uid aid = ((Except.ok b), st') := by
  rcases ho : getUser st uid with _ | user
  · rw [ho] at h; exact absurd h (by simp)
  · simp only [unlockAchievement, ho]
    split
    · exact ⟨false, st, rfl⟩
    · split
      · exact ⟨false, st, rfl⟩
      · rename_i achievement hach
        have hs : getUser (updateUser st uid
            (fun u => { u with achievements := user.achievements ++ [aid] })) uid =
            some { user with achievements := user.achievements ++ [aid] } :=
          getUser_updateUser_self st uid _ user (fun v => rfl) ho
        obtain ⟨n, st2, haw⟩ := awardFocusCoins_ok (updateUser st uid
          (fun u => { u with achievements := user.achievements ++ [aid] })) uid
          (achievement.reward : Int) (by rw [hs]; rfl)
        rw [haw]
        exact ⟨true, _, rfl⟩

theorem unlockList_structFrame (uid : String) :
    ∀ (ids : List String) (st : Store), StructFrame st (unlockList st uid ids).2 := by
  intro ids
  induction ids with
  | nil => intro st; exact structFrame_refl st
  | cons aid rest ih =>
    intro st
    simp only [unlockList]
    split
    · rename_i e st1 h
      have h1 := unlockAchievement_structFrame st uid aid
      rw [h] at h1
      exact h1
    · rename_i b st1 h
      have h1 := unlockAchievement_structFrame st uid aid
      rw [h] at h1
      exact structFrame_trans h1 (ih st1)

theorem unlockList_corePreserved (uid : String) :
    ∀ (ids : List String) (st : Store), CorePreserved st (unlockList st uid ids).2 := by
  intro ids
  induction ids with
  | nil => intro st; exact corePreserved_refl st
  | cons aid rest ih =>
    intro st
    simp only [unlockList]
    split
    · rename_i e st1 h
      have h1 := unlockAchievement_corePreserved st uid aid
      rw [h] at h1
      exact h1
    · rename_i b st1 h
      have h1 := unlockAchievement_corePreserved st uid aid
      rw [h] at h1
      exact corePreserved_trans h1 (ih st1)

theorem unlockList_ok (uid : String) :
    ∀ (ids : List String) (st : Store), (getUser st uid).isSome →
      ∃ st', unlockList st uid ids = ((Except.ok ()), st') := by
  intro ids
  induction ids with
  | nil => intro st _; exact ⟨st, rfl⟩
  | cons aid rest ih =>
    intro st h
    obtain ⟨b, st1, hb⟩ := unlockAchievement_ok st uid aid h
    have hpres : (getUser st1 uid).isSome := by
      have hcp := unlockAchievement_corePreserved st uid aid
      rw [hb] at hcp
      rw [corePreserved_isSome hcp uid]
      exact h
    obtain ⟨st2, h2⟩ := ih st1 hpres
    refine ⟨st2, ?_⟩
    simp only [unlockList, hb]
    exact h2

theorem checkStreakAchievements_structFrame (st : Store) (uid : String) (streak : Nat) :
    StructFrame st (checkStreakAchievements st uid streak).2 :=
  unlockList_structFrame uid _ st

theorem checkStreakAchievements_corePreserved (st : Store) (uid : String) (streak : Nat) :
    CorePreserved st (checkStreakAchievements st uid streak).2 :=
  unlockList_corePreserved uid _ st

theorem checkStreakAchievements_ok (st : Store) (uid : String) (streak : Nat)
    (h : (getUser st uid).isSome) :
    ∃ st', checkStreakAchievements st uid streak = ((Except.ok ()), st') :=
  unlockList_ok uid _ st h

theorem checkAchievementsAux_structFrame (user : User) (uid : String) :
    ∀ (l : List Achievement) (st : Store),
      StructFrame st (checkAchievementsAux user uid st l).2 := by
  intro l
  induction l with
  | nil => intro st; exact structFrame_refl st
  | cons a rest ih =>
    intro st
    simp only [checkAchievementsAux]
    split
    · exact ih st
    · split
      · split
        · rename_i e st1 h
          have h1 := unlockAchievement_structFrame st uid a.id
          rw [h] at h1
          exact h1
        · rename_i b st1 h
          have h1 := unlockAchievement_structFrame st uid a.id
          rw [h] at h1
          split
          · rename_i e st2 h2
            have h3 := ih st1
            rw [h2] at h3
            exact structFrame_trans h1 h3
          · rename_i ids st2 h2
            have h3 := ih st1
            rw [h2] at h3
            exact structFrame_trans h1 h3
      · exact ih st

theorem checkAchievementsAux_corePreserved (user : User) (uid : String) :
    ∀ (l : List Achievement) (st : Store),
      CorePreserved st (checkAchievementsAux user uid st l).2 := by
  intro l
  induction l with
  | nil => intro st; exact corePreserved_refl st
  | cons a rest ih =>
    intro st
    simp only [checkAchievementsAux]
    split
    · exact ih st
    · split
      · split
        · rename_i e st1 h
          have h1 := unlockAchievement_corePreserved st uid a.id
          rw [h] at h1
          exact h1
        · rename_i b st1 h
          have h1 := unlockAchievement_corePreserved st uid a.id
          rw [h] at h1
          split
          · rename_i e st2 h2
            have h3 := ih st1
            rw [h2] at h3
            exact corePreserved_trans h1 h3
          · rename_i ids st2 h2
            have h3 := ih st1
            rw [h2] at h3
            exact corePreserved_trans h1 h3
      · exact ih st

theorem checkAchievementsAux_ok (user : User) (uid : String) :
    ∀ (l : List Achievement) (st : Store), (getUser st uid).isSome →
      ∃ ids st', checkAchievementsAux user uid st l = ((Except.ok ids), st') := by
  intro l
  induction l with
  | nil => intro st _; exact ⟨[], st, rfl⟩
  | cons a rest ih =>
    intro st h
    simp only [checkAchievementsAux]
    split
    · exact ih st h
    · split
      · obtain ⟨b, st1, hb⟩ := unlockAchievement_ok st uid a.id h
        have hpres : (getUser st1 uid).isSome := by
          have hcp := unlockAchievement_corePreserved st uid a.id
          rw [hb] at hcp
          rw [corePreserved_isSome hcp uid]
          exact h
        obtain ⟨ids, st2, h2⟩ := ih st1 hpres
        simp only [hb, h2]
        exact ⟨if b then a.id :: ids else ids, st2, rfl⟩
      · exact ih st h

theorem checkAchievements_structFrame (st : Store) (uid : String) :
    StructFrame st (checkAchievements st uid).2 := by
  simp only [checkAchievements]
  split
  · exact structFrame_refl st
  · exact checkAchievementsAux_structFrame _ uid ACHIEVEMENTS st

theorem checkAchievements_corePreserved (st : Store) (uid : String) :
    CorePreserved st (checkAchievements st uid).2 := by
  simp only [checkAchievements]
  split
  · exact corePreserved_refl st
  · exact checkAchievementsAux_corePreserved _ uid ACHIEVEMENTS st

theorem checkAchievements_ok (st : Store) (uid : String) (user : User)
    (h : getUser st uid = some user) :
    ∃ ids st', checkAchievements st uid = ((Except.ok ids), st') := by
  simp only [checkAchievements, h]
  exact checkAchievementsAux_ok user uid ACHIEVEMENTS st (by rw [h]; rfl)

theorem updateStreak_structFrame (st : Store) (uid : String) (today : Nat) :
    StructFrame st (updateStreak st uid today).2 := by
  simp only [updateStreak]
  split
  · exact structFrame_refl st
  · rename_i user hu
    split
    · exact structFrame_refl st
    · split
      · rename_i e st2 h2
        have hsnd := congrArg Prod.snd h2
        rw [← hsnd]
        exact structFrame_trans (updateUser_structFrame st uid _)
          (checkStreakAchievements_structFrame _ uid _)
      · rename_i v st2 h2
        have hsnd := congrArg Prod.snd h2
        rw [← hsnd]
        exact structFrame_trans (updateUser_structFrame st uid _)
          (checkStreakAchievements_structFrame _ uid _)

theorem updateUserStats_frame (st : Store) (uid : String) (minutes coins : Int) :
    (updateUserStats st uid minutes coins).users = st.users ∧
    (updateUserStats st uid minutes coins).sessions = st.sessions ∧
    (updateUserStats st uid minutes coins).pods = st.pods := by
  simp only [updateUserStats, putUserStats]
  split <;> exact ⟨rfl, rfl, rfl⟩

theorem cancelPodNotify_frame (pod : Pod) :
    ∀ (l : List PodParticipant) (st : Store),
      (cancelPodNotify pod l st).users = st.users ∧
      (cancelPodNotify pod l st).sessions = st.sessions ∧
      (cancelPodNotify pod l st).pods = st.pods := by
  intro l
  induction l with
  | nil => intro st; exact ⟨rfl, rfl, rfl⟩
  | cons q rest ih =>
    intro st
    simp only [cancelPodNotify]
    split
    · exact ih st
    · exact ih _


/-! ### Claim theorems -/

/-- C6: for every `baseReward`, `streak` and `inPod`,
`calculatePomodoroReward` returns
`round(base + base * min(floor(streak/3) * 0.1, 0.5) + (inPod ? base * 0.5 : 0))`:
the streak bonus is capped at 50%, the pod bonus is a flat additional 50% of
base, both added before rounding to the nearest integer; in particular
`calculatePomodoroReward 1 9 true = 2`. -/
theorem calculatePomodoroReward_closed_form :
    (∀ (b : ℚ) (s : Nat) (p : Bool),
        calculatePomodoroReward b s p =
          jsRound (b + b * min (((s / 3 : ℕ) : ℚ) * (1/10)) (1/2) +
            (if p then b * (1/2) else 0))) ∧
    calculatePomodoroReward 1 9 true = 2 := by
  constructor
  · intro b s p
    unfold calculatePomodoroReward
    cases p
    · simp
    · rfl
  · norm_num [calculatePomodoroReward, jsRound]

/-- Shared helper: `completeSession` on an already-completed session throws
before any write, leaving the store untouched. -/
theorem completeSession_alreadyCompleted (st : Store) (sid : String)
    (ta : Option TaskAction) (early : Bool) (nowMs : Nat) (s : PomodoroSession)
    (h1 : getSession st sid = some s) (h2 : s.completed = true) :
    completeSession st sid ta early nowMs =
      ((Except.error ServiceError.alreadyCompleted), st) := by
  simp only [completeSession, h1, h2, if_true]

/-- C3: `completeSession` is idempotent under re-invocation: on a session
whose `completed` flag is already set it reports `alreadyCompleted`, grants
no additional reward, and returns the store exactly as it was (so the stored
session, the user's counters and coins, and the rolling stats are all
unchanged). -/
theorem completeSession_idempotent_guard (st : Store) (sid : String)
    (ta : Option TaskAction) (early : Bool) (nowMs : Nat) (s : PomodoroSession)
    (h1 : getSession st sid = some s) (h2 : s.completed = true) :
    completeSession st sid ta early nowMs =
      ((Except.error ServiceError.alreadyCompleted), st) :=
  completeSession_alreadyCompleted st sid ta early nowMs s h1 h2

/-- Witness for C3 at a concrete completed session. -/
theorem completeSession_idempotent_guard_witness :
    completeSession stDoneW "s3" none false 1500000 =
      ((Except.error ServiceError.alreadyCompleted), stDoneW) :=
  completeSession_idempotent_guard stDoneW "s3" none false 1500000
    completedSessionW (by decide) rfl

/-- C10: for an existing user and an `achievementId` absent from the
`ACHIEVEMENTS` catalog, `unlockAchievement` returns `false` without error
and performs no mutation at all (same store, hence same achievements, same
coins, no new notification). -/
theorem unlockAchievement_unknown_id_noop (st : Store) (uid aid : String) (user : User)
    (hu : getUser st uid = some user)
    (hf : ACHIEVEMENTS.find? (fun a => a.id == aid) = none) :
    unlockAchievement st uid aid = ((Except.ok false), st) := by
  simp only [unlockAchievement, hu, hf]
  split
  · rfl
  · rfl

/-- Witness for C10 at a concrete unknown achievement id. -/
theorem unlockAchievement_unknown_id_noop_witness :
    unlockAchievement stOpenW "u1" "no_such_achievement" = ((Except.ok false), stOpenW) :=
  unlockAchievement_unknown_id_noop stOpenW "u1" "no_such_achievement" aliceW
    (by decide) (by decide)

theorem getUser_createNotification (st : Store) (n : Notification) (uid : String) :
    getUser (createNotification st n) uid = getUser st uid := rfl

/-- C7: `unlockAchievement` has exactly-once semantics: if the id is already
in the user's unlocked set it returns `false` and changes nothing; otherwise
it appends the id once, credits exactly that achievement's coin reward, and
a repeated call on the resulting store returns `false` and changes nothing
further. -/
theorem unlockAchievement_exactly_once (st : Store) (uid aid : String) (user : User)
    (hu : getUser st uid = some user) :
    (aid ∈ user.achievements → unlockAchievement st uid aid = ((Except.ok false), st)) ∧
    (aid ∉ user.achievements →
      ∀ ach, ACHIEVEMENTS.find? (fun a => a.id == aid) = some ach →
        ∃ u' st', unlockAchievement st uid aid = ((Except.ok true), st') ∧
          getUser st' uid = some u' ∧
          u'.achievements = user.achievements ++ [aid] ∧
          u'.focusCoins = user.focusCoins + ach.reward ∧
          unlockAchievement st' uid aid = ((Except.ok false), st')) := by
  constructor
  · intro hmem
    have hc : user.achievements.contains aid = true := by
      simpa using hmem
    simp only [unlockAchievement, hu, hc, if_true]
  · intro hmem ach hach
    have hc : user.achievements.contains aid = false := by
      simpa using hmem
    have hu1 : getUser (updateUser st uid
        (fun u => { u with achievements := user.achievements ++ [aid] })) uid =
        some { user with achievements := user.achievements ++ [aid] } :=
      getUser_updateUser_self st uid _ user (fun v => rfl) hu
    have hu2 : getUser (updateUser (updateUser st uid
        (fun u => { u with achievements := user.achievements ++ [aid] })) uid
        (fun u => { u with focusCoins := user.focusCoins + (ach.reward : Int) })) uid =
        some { user with achievements := user.achievements ++ [aid], focusCoins := user.focusCoins + (ach.reward : Int) } :=
      getUser_updateUser_self (updateUser st uid
        (fun u => { u with achievements := user.achievements ++ [aid] })) uid
        (fun u => { u with focusCoins := user.focusCoins + (ach.reward : Int) })
        { user with achievements := user.achievements ++ [aid] } (fun v => rfl) hu1
    have hrun : unlockAchievement st uid aid = ((Except.ok true),
        createNotification (updateUser (updateUser st uid
            (fun u => { u with achievements := user.achievements ++ [aid] })) uid
            (fun u => { u with focusCoins := user.focusCoins + (ach.reward : Int) }))
          { userId := uid, type := NotificationType.achievementUnlocked, message := "🏆 Разблокировано: " ++ ach.icon ++ " " ++ ach.name ++ "! +" ++ toString ach.reward ++ " FocusCoins", read := false }) := by
      simp only [unlockAchievement, hu, hc, Bool.false_eq_true, if_false, hach,
        awardFocusCoins, hu1]
    refine ⟨{ user with achievements := user.achievements ++ [aid], focusCoins := user.focusCoins + (ach.reward : Int) }, _, hrun, hu2, rfl, rfl, ?_⟩
    have hc2 : (user.achievements ++ [aid]).contains aid = true := by
      simp
    simp only [unlockAchievement, getUser_createNotification, hu2, hc2, if_true]

/-- Witness for C7 at a concrete already-unlocked achievement. -/
theorem unlockAchievement_exactly_once_witness :
    unlockAchievement stC7 "u7" "first_focus" = ((Except.ok false), stC7) :=
  (unlockAchievement_exactly_once stC7 "u7" "first_focus" unlockedUserW (by decide)).1
    (by decide)

theorem userCore_eq_fields {u v : User} (h : userCore u = userCore v) :
    u.id = v.id ∧ u.totalPomodoros = v.totalPomodoros ∧
    u.totalFocusMinutes = v.totalFocusMinutes ∧ u.completedTasks = v.completedTasks ∧
    u.currentStreak = v.currentStreak ∧ u.bestStreak = v.bestStreak ∧
    u.lastActiveDate = v.lastActiveDate := by
  simpa [userCore, Prod.mk.injEq] using h

theorem map_userCore_some {o : Option User} {v : User}
    (h : o.map userCore = some (userCore v)) :
    ∃ u', o = some u' ∧ userCore u' = userCore v := by
  cases o with
  | none => simp at h
  | some u => exact ⟨u, rfl, by simpa using h⟩

/-- C5: `updateStreak` has the daily-calendar semantics: same day is a
no-op returning the current values; exactly one day earlier increments the
current streak; any other gap resets it to 1; `bestStreak` ends up as
`max(previous bestStreak, new currentStreak)` in every case, and
`lastActiveDate` is stamped to today whenever the streak changes. -/
theorem updateStreak_calendar (st : Store) (uid : String) (today : Nat) (user : User)
    (hu : getUser st uid = some user)
    (hinv : user.currentStreak ≤ user.bestStreak) :
    (user.lastActiveDate = today →
        updateStreak st uid today = ((Except.ok (user.currentStreak, user.bestStreak)), st) ∧
        user.bestStreak = max user.bestStreak user.currentStreak) ∧
    (user.lastActiveDate + 1 = today →
        ∃ u' st', updateStreak st uid today =
            ((Except.ok (user.currentStreak + 1, max user.bestStreak (user.currentStreak + 1))), st') ∧
          getUser st' uid = some u' ∧
          u'.currentStreak = user.currentStreak + 1 ∧
          u'.bestStreak = max user.bestStreak (user.currentStreak + 1) ∧
          u'.lastActiveDate = today) ∧
    (user.lastActiveDate ≠ today → user.lastActiveDate + 1 ≠ today →
        ∃ u' st', updateStreak st uid today =
            ((Except.ok (1, max user.bestStreak 1)), st') ∧
          getUser st' uid = some u' ∧
          u'.currentStreak = 1 ∧
          u'.bestStreak = max user.bestStreak 1 ∧
          u'.lastActiveDate = today) := by
  refine ⟨?_, ?_, ?_⟩
  · intro h
    have hbeq : (user.lastActiveDate == today) = true := by
      simpa using h
    constructor
    · simp only [updateStreak, hu, hbeq, if_true]
    · exact (Nat.max_eq_left hinv).symm
  · intro h
    have hbeq1 : (user.lastActiveDate == today) = false := by
      simp only [beq_eq_false_iff_ne, ne_eq]
      omega
    have hbeq2 : (user.lastActiveDate == today - 1) = true := by
      simp only [beq_iff_eq]
      omega
    have hbest : (if user.bestStreak < user.currentStreak + 1 then user.currentStreak + 1 else user.bestStreak) = max user.bestStreak (user.currentStreak + 1) := by
      rw [Nat.max_def]
      split <;> split <;> omega
    have hu1 : getUser (updateUser st uid
        (fun u => { u with currentStreak := user.currentStreak + 1, bestStreak := if user.bestStreak < user.currentStreak + 1 then user.currentStreak + 1 else user.bestStreak, lastActiveDate := today })) uid =
        some { user with currentStreak := user.currentStreak + 1, bestStreak := if user.bestStreak < user.currentStreak + 1 then user.currentStreak + 1 else user.bestStreak, lastActiveDate := today } :=
      getUser_updateUser_self st uid _ user (fun v => rfl) hu
    obtain ⟨st2, hcs⟩ := checkStreakAchievements_ok (updateUser st uid
      (fun u => { u with currentStreak := user.currentStreak + 1, bestStreak := if user.bestStreak < user.currentStreak + 1 then user.currentStreak + 1 else user.bestStreak, lastActiveDate := today })) uid
      (user.currentStreak + 1) (by rw [hu1]; rfl)
    have hcp := checkStreakAchievements_corePreserved (updateUser st uid
      (fun u => { u with currentStreak := user.currentStreak + 1, bestStreak := if user.bestStreak < user.currentStreak + 1 then user.currentStreak + 1 else user.bestStreak, lastActiveDate := today })) uid
      (user.currentStreak + 1)
    rw [hcs] at hcp
    have hmap := hcp uid
    rw [hu1] at hmap
    simp only [Option.map_some] at hmap
    obtain ⟨u', hg2, hcore⟩ := map_userCore_some hmap
    obtain ⟨_, _, _, _, hcur, hbest', hlast⟩ := userCore_eq_fields hcore
    refine ⟨u', st2, ?_, hg2, ?_, ?_, ?_⟩
    · simp only [updateStreak, hu, hbeq1, Bool.false_eq_true, if_false, hbeq2,
        eq_self_iff_true, if_true, hcs]
      rw [hbest]
    · simpa using hcur
    · rw [← hbest]
      simpa using hbest'
    · simpa using hlast
  · intro h1 h2
    have hbeq1 : (user.lastActiveDate == today) = false := by
      simp only [beq_eq_false_iff_ne, ne_eq]
      omega
    have hbeq2 : (user.lastActiveDate == today - 1) = false := by
      simp only [beq_eq_false_iff_ne, ne_eq]
      omega
    have hbest : (if user.bestStreak < 1 then 1 else user.bestStreak) = max user.bestStreak 1 := by
      rw [Nat.max_def]
      split <;> split <;> omega
    have hu1 : getUser (updateUser st uid
        (fun u => { u with currentStreak := 1, bestStreak := if user.bestStreak < 1 then 1 else user.bestStreak, lastActiveDate := today })) uid =
        some { user with currentStreak := 1, bestStreak := if user.bestStreak < 1 then 1 else user.bestStreak, lastActiveDate := today } :=
      getUser_updateUser_self st uid _ user (fun v => rfl) hu
    obtain ⟨st2, hcs⟩ := checkStreakAchievements_ok (updateUser st uid
      (fun u => { u with currentStreak := 1, bestStreak := if user.bestStreak < 1 then 1 else user.bestStreak, lastActiveDate := today })) uid
      1 (by rw [hu1]; rfl)
    have hcp := checkStreakAchievements_corePreserved (updateUser st uid
      (fun u => { u with currentStreak := 1, bestStreak := if user.bestStreak < 1 then 1 else user.bestStreak, lastActiveDate := today })) uid 1
    rw [hcs] at hcp
    have hmap := hcp uid
    rw [hu1] at hmap
    simp only [Option.map_some] at hmap
    obtain ⟨u', hg2, hcore⟩ := map_userCore_some hmap
    obtain ⟨_, _, _, _, hcur, hbest', hlast⟩ := userCore_eq_fields hcore
    refine ⟨u', st2, ?_, hg2, ?_, ?_, ?_⟩
    · simp only [updateStreak, hu, hbeq1, hbeq2, Bool.false_eq_true, if_false,
        hcs]
      rw [hbest]
    · simpa using hcur
    · rw [← hbest]
      simpa using hbest'
    · simpa using hlast

/-- Witness for C5: a user last active on day 4 calling on day 5 extends the
streak. -/
theorem updateStreak_calendar_witness :
    ∃ u' st', updateStreak stStreakW "u5" 5 =
        ((Except.ok (3, 6)), st') ∧
      getUser st' "u5" = some u' ∧
      u'.currentStreak = 3 ∧
      u'.bestStreak = 6 ∧
      u'.lastActiveDate = 5 :=
  (updateStreak_calendar stStreakW "u5" 5 streakUser5W (by decide) (by decide)).2.1 (by decide)

theorem finishSession_openCount (st : Store) (sid : String) (ta : Option TaskAction)
    (reward : Int) (ach : List String) (actual : Int) (nowMs : Nat) (u : String) :
    openCount (finishSession st sid ta reward ach actual nowMs).2.sessions u ≤
      openCount st.sessions u := by
  simp only [finishSession, updateSession]
  have key : openCount (st.sessions.map (fun s =>
      if s.id == sid then
        { s with completed := true, endTime := some nowMs, taskAction := ta, reward := reward }
      else s)) u ≤ openCount st.sessions u := by
    refine length_filter_map_le _ _ ?_ st.sessions
    intro s hp
    by_cases hid : (s.id == sid) = true
    · simp [openSession, hid] at hp
    · simpa [hid] using hp
  split
  · rename_i st1 heq
    have h2 : ({ st with sessions := st.sessions.map (fun s =>
        if s.id == sid then
          { s with completed := true, endTime := some nowMs, taskAction := ta, reward := reward }
        else s) } : Store) = st1 := congrArg Prod.snd heq
    rw [← h2]
    exact key
  · rename_i updated st1 heq
    have h2 : ({ st with sessions := st.sessions.map (fun s =>
        if s.id == sid then
          { s with completed := true, endTime := some nowMs, taskAction := ta, reward := reward }
        else s) } : Store) = st1 := congrArg Prod.snd heq
    rw [← h2]
    exact key

theorem completeSession_openCount (st : Store) (sid : String) (ta : Option TaskAction)
    (early : Bool) (nowMs : Nat) (u : String) :
    openCount (completeSession st sid ta early nowMs).2.sessions u ≤
      openCount st.sessions u := by
  simp only [completeSession]
  split
  · exact Nat.le_refl _
  · rename_i session hses
    split
    · exact Nat.le_refl _
    · split
      · exact Nat.le_refl _
      · rename_i user huser
        split
        · split
          · rename_i e st3 hca
            have hsnd := congrArg Prod.snd hca
            rw [← hsnd]
            rw [(checkAchievements_structFrame _ _).1]
            rw [(updateUserStats_frame _ _ _ _).2.1]
            exact Nat.le_refl _
          · rename_i achievements st3 hca
            have hsnd : _ = st3 := congrArg Prod.snd hca
            rw [← hsnd]
            refine Nat.le_trans (finishSession_openCount _ _ _ _ _ _ _ _) ?_
            rw [(checkAchievements_structFrame _ _).1]
            rw [(updateUserStats_frame _ _ _ _).2.1]
            exact Nat.le_refl _
        · exact finishSession_openCount _ _ _ _ _ _ _ _

theorem cancelSession_openCount (st : Store) (sid : String) (nowMs : Nat) (u : String) :
    openCount (cancelSession st sid nowMs).2.sessions u ≤ openCount st.sessions u := by
  simp only [cancelSession]
  split
  · exact Nat.le_refl _
  · simp only [updateSession]
    refine length_filter_map_le _ _ ?_ st.sessions
    intro s hp
    by_cases hid : (s.id == sid) = true
    · simp [openSession, hid] at hp
    · simpa [hid] using hp

theorem openCount_append_new (l : List PomodoroSession) (s0 : PomodoroSession) (u : String)
    (hinv : ∀ v, openCount l v ≤ 1)
    (hnone : (l.filter (fun s => s.userId == s0.userId)).find?
      (fun s => openSession s) = none) :
    openCount (l ++ [s0]) u ≤ 1 := by
  have hsingle : ((([s0] : List PomodoroSession)).filter
      (fun s => openSession s && s.userId == u)).length ≤ 1 := by
    simp only [List.filter]
    cases openSession s0 && s0.userId == u <;> simp
  rw [openCount, List.filter_append, List.length_append]
  by_cases hu : (s0.userId == u) = true
  · have hzero : (l.filter (fun s => openSession s && s.userId == u)).length = 0 := by
      rw [List.length_eq_zero, List.filter_eq_nil_iff]
      intro s hs hp
      rw [Bool.and_eq_true] at hp
      have hfu : s ∈ l.filter (fun t => t.userId == s0.userId) := by
        rw [List.mem_filter]
        refine ⟨hs, ?_⟩
        have h1 : s.userId = u := by simpa using hp.2
        have h2 : s0.userId = u := by simpa using hu
        simp [h1, h2]
      have := List.find?_eq_none.mp hnone s hfu
      exact this hp.1
    omega
  · have hu' : (s0.userId == u) = false := by
      cases hb : (s0.userId == u)
      · rfl
      · exact absurd hb hu
    have hnil : (([s0] : List PomodoroSession)).filter
        (fun s => openSession s && s.userId == u) = [] := by
      simp only [List.filter, hu', Bool.and_false]
    rw [hnil]
    simpa using hinv u

/-- C1: at most one open session (`completed = false`, no `endTime`) per
user: `startSession` reports the already-active error whenever the user has
an open session, and `startSession`, `completeSession` and `cancelSession`
all preserve the at-most-one-open-session invariant. -/
theorem at_most_one_open_session (st : Store) (userId sid sid2 newId : String)
    (duration : Nat) (podId : Option String) (nowMs today : Nat)
    (ta : Option TaskAction) (early : Bool)
    (hinv : sessionInvariant st) :
    ((∃ s ∈ st.sessions, s.userId = userId ∧ openSession s = true) →
        (startSession st userId duration podId newId nowMs today).1 =
          Except.error ServiceError.alreadyActive) ∧
    sessionInvariant (startSession st userId duration podId newId nowMs today).2 ∧
    sessionInvariant (completeSession st sid ta early nowMs).2 ∧
    sessionInvariant (cancelSession st sid2 nowMs).2 := by
  refine ⟨?_, ?_,
    fun u => Nat.le_trans (completeSession_openCount st sid ta early nowMs u) (hinv u),
    fun u => Nat.le_trans (cancelSession_openCount st sid2 nowMs u) (hinv u)⟩
  · rintro ⟨s, hmem, huid, hopen⟩
    rcases hfind : (getUserSessions st userId).find? (fun s => openSession s) with _ | s1
    · exfalso
      have hf : s ∈ getUserSessions st userId := by
        rw [getUserSessions, List.mem_filter]
        exact ⟨hmem, by simp [huid]⟩
      exact (List.find?_eq_none.mp hfind s hf) hopen
    · simp only [startSession, hfind]
  · intro u
    rcases hfind : (getUserSessions st userId).find? (fun s => openSession s) with _ | s1
    · rcases hgu : getUser st userId with _ | user
      · simp only [startSession, hfind, hgu]
        exact hinv u
      · simp only [startSession, hfind, hgu]
        split
        · rename_i e st2 hus
          have hsnd := congrArg Prod.snd hus
          rw [← hsnd]
          rw [(updateStreak_structFrame _ _ _).1]
          exact openCount_append_new st.sessions _ u hinv hfind
        · rename_i v st2 hus
          have hsnd := congrArg Prod.snd hus
          rw [← hsnd]
          rw [(updateStreak_structFrame _ _ _).1]
          exact openCount_append_new st.sessions _ u hinv hfind
    · simp only [startSession, hfind]
      exact hinv u

/-- Witness for C1: with an open session in the store, a second
`startSession` for the same user is rejected. -/
theorem at_most_one_open_session_witness :
    (startSession stOpenW "u1" 25 none "s9" 600000 1).1 =
      Except.error ServiceError.alreadyActive :=
  (at_most_one_open_session stOpenW "u1" "s1" "s1" "s9" 25 none 600000 1 none false
      (by
        intro u
        rw [openCount]
        cases h : (openSession openSessionW && openSessionW.userId == u) <;>
          simp [stOpenW, List.filter, h])).1
    ⟨openSessionW, by decide, rfl, rfl⟩

theorem getUser_updateUserStats (st : Store) (uid uid' : String) (m c : Int) :
    getUser (updateUserStats st uid m c) uid' = getUser st uid' := by
  rw [getUser, getUser, (updateUserStats_frame st uid m c).1]

theorem updateSession_found (st : Store) (sid : String)
    (f : PomodoroSession → PomodoroSession) (hf : ∀ s, (f s).id = s.id)
    (s : PomodoroSession) (hs : getSession st sid = some s) :
    updateSession st sid f = (some (f s),
      { st with sessions := st.sessions.map (fun t => if t.id == sid then f t else t) }) := by
  have hfind : (st.sessions.map (fun t => if t.id == sid then f t else t)).find?
      (fun t => t.id == sid) = some (f s) := by
    rw [find?_map_pres _ _ (fun t => by cases ht : (t.id == sid) <;> simp [ht, hf t]) st.sessions]
    have hs' : List.find? (fun t => t.id == sid) st.sessions = some s := hs
    rw [hs']
    have hsid : (s.id == sid) = true := by
      have := List.find?_some hs'
      simpa using this
    show some (if (s.id == sid) = true then f s else s) = some (f s)
    rw [if_pos hsid]
  simp only [updateSession]
  rw [hfind]

theorem finishSession_found (st : Store) (sid : String) (ta : Option TaskAction)
    (reward : Int) (ach : List String) (actual : Int) (nowMs : Nat)
    (s : PomodoroSession) (hs : getSession st sid = some s) :
    finishSession st sid ta reward ach actual nowMs =
      ((Except.ok { session := { s with completed := true, endTime := some nowMs, taskAction := ta, reward := reward }, reward := reward, achievements := ach, actualMinutes := actual }),
        { st with sessions := st.sessions.map (fun t => if t.id == sid then { t with completed := true, endTime := some nowMs, taskAction := ta, reward := reward } else t) }) := by
  rw [finishSession, updateSession_found st sid
    (fun t => { t with completed := true, endTime := some nowMs, taskAction := ta, reward := reward })
    (fun t => rfl) s hs]

theorem one_le_calculatePomodoroReward (s : Nat) (p : Bool) :
    1 ≤ calculatePomodoroReward 1 s p := by
  have hb : (0:ℚ) ≤ min (((s / 3 : ℕ) : ℚ) * (1/10)) (1/2) :=
    le_min (by positivity) (by norm_num)
  cases p <;>
    simp only [calculatePomodoroReward, jsRound, Bool.false_eq_true, if_false, if_true] <;>
    rw [Int.le_floor] <;>
    push_cast <;>
    linarith [hb]

/-- C2: `completeSession` grants a positive reward and increments
`totalPomodoros` exactly when `completionRate ≥ 0.9` or the call is not
flagged early; otherwise the reward is 0 and `totalPomodoros` is unchanged;
in both cases `totalFocusMinutes` grows by the actual elapsed minutes. -/
theorem completeSession_reward_policy (st : Store) (sid : String) (ta : Option TaskAction)
    (early : Bool) (nowMs : Nat) (session : PomodoroSession) (user : User)
    (h1 : getSession st sid = some session)
    (h2 : session.completed = false)
    (h3 : getUser st session.userId = some user)
    (h4 : 0 < session.duration) :
    ∃ res st', completeSession st sid ta early nowMs = ((Except.ok res), st') ∧
      res.actualMinutes = ((nowMs : Int) - (session.startTime : Int)).fdiv 60000 ∧
      (0 < res.reward ↔
        ((9/10 : ℚ) ≤ ((((nowMs : Int) - (session.startTime : Int)).fdiv 60000 : Int) : ℚ) / (session.duration : ℚ) ∨ early = false)) ∧
      ∃ u', getUser st' session.userId = some u' ∧
        u'.totalFocusMinutes = user.totalFocusMinutes + ((nowMs : Int) - (session.startTime : Int)).fdiv 60000 ∧
        (((9/10 : ℚ) ≤ ((((nowMs : Int) - (session.startTime : Int)).fdiv 60000 : Int) : ℚ) / (session.duration : ℚ) ∨ early = false) →
          u'.totalPomodoros = user.totalPomodoros + 1) ∧
        (¬((9/10 : ℚ) ≤ ((((nowMs : Int) - (session.startTime : Int)).fdiv 60000 : Int) : ℚ) / (session.duration : ℚ) ∨ early = false) →
          res.reward = 0 ∧ u'.totalPomodoros = user.totalPomodoros) := by
  by_cases hcond : ((9/10 : ℚ) ≤ ((((nowMs : Int) - (session.startTime : Int)).fdiv 60000 : Int) : ℚ) / (session.duration : ℚ) ∨ early = false)
  · have hu1 : getUser (updateUser st session.userId (fun u =>
        { u with totalPomodoros := user.totalPomodoros + 1, totalFocusMinutes := user.totalFocusMinutes + ((nowMs : Int) - (session.startTime : Int)).fdiv 60000, focusCoins := user.focusCoins + calculatePomodoroReward 1 user.currentStreak session.podId.isSome })) session.userId =
        some { user with totalPomodoros := user.totalPomodoros + 1, totalFocusMinutes := user.totalFocusMinutes + ((nowMs : Int) - (session.startTime : Int)).fdiv 60000, focusCoins := user.focusCoins + calculatePomodoroReward 1 user.currentStreak session.podId.isSome } :=
      getUser_updateUser_self st session.userId _ user (fun v => rfl) h3
    have hu2 : getUser (updateUserStats (updateUser st session.userId (fun u =>
        { u with totalPomodoros := user.totalPomodoros + 1, totalFocusMinutes := user.totalFocusMinutes + ((nowMs : Int) - (session.startTime : Int)).fdiv 60000, focusCoins := user.focusCoins + calculatePomodoroReward 1 user.currentStreak session.podId.isSome }))
        session.userId (((nowMs : Int) - (session.startTime : Int)).fdiv 60000) (calculatePomodoroReward 1 user.currentStreak session.podId.isSome)) session.userId =
        some { user with totalPomodoros := user.totalPomodoros + 1, totalFocusMinutes := user.totalFocusMinutes + ((nowMs : Int) - (session.startTime : Int)).fdiv 60000, focusCoins := user.focusCoins + calculatePomodoroReward 1 user.currentStreak session.podId.isSome } := by
      rw [getUser_updateUserStats]
      exact hu1
    obtain ⟨ids, st3, hca⟩ := checkAchievements_ok _ session.userId _ hu2
    have hsf := checkAchievements_structFrame (updateUserStats (updateUser st session.userId (fun u =>
        { u with totalPomodoros := user.totalPomodoros + 1, totalFocusMinutes := user.totalFocusMinutes + ((nowMs : Int) - (session.startTime : Int)).fdiv 60000, focusCoins := user.focusCoins + calculatePomodoroReward 1 user.currentStreak session.podId.isSome }))
        session.userId (((nowMs : Int) - (session.startTime : Int)).fdiv 60000) (calculatePomodoroReward 1 user.currentStreak session.podId.isSome)) session.userId
    rw [hca] at hsf
    have hsess3 : st3.sessions = st.sessions := by
      have hx := hsf.1
      rw [(updateUserStats_frame _ _ _ _).2.1] at hx
      exact hx
    have hses3 : getSession st3 sid = some session := by
      rw [getSession, hsess3]
      exact h1
    have hcp := checkAchievements_corePreserved (updateUserStats (updateUser st session.userId (fun u =>
        { u with totalPomodoros := user.totalPomodoros + 1, totalFocusMinutes := user.totalFocusMinutes + ((nowMs : Int) - (session.startTime : Int)).fdiv 60000, focusCoins := user.focusCoins + calculatePomodoroReward 1 user.currentStreak session.podId.isSome }))
        session.userId (((nowMs : Int) - (session.startTime : Int)).fdiv 60000) (calculatePomodoroReward 1 user.currentStreak session.podId.isSome)) session.userId
    rw [hca] at hcp
    have hmap := hcp session.userId
    rw [hu2] at hmap
    simp only [Option.map_some] at hmap
    obtain ⟨u', hg', hcore⟩ := map_userCore_some hmap
    obtain ⟨_, hpom, hmin, _, _, _, _⟩ := userCore_eq_fields hcore
    have hrun : completeSession st sid ta early nowMs =
        ((Except.ok { session := { session with completed := true, endTime := some nowMs, taskAction := ta, reward := calculatePomodoroReward 1 user.currentStreak session.podId.isSome }, reward := calculatePomodoroReward 1 user.currentStreak session.podId.isSome, achievements := ids, actualMinutes := ((nowMs : Int) - (session.startTime : Int)).fdiv 60000 }),
          { st3 with sessions := st3.sessions.map (fun t => if t.id == sid then { t with completed := true, endTime := some nowMs, taskAction := ta, reward := calculatePomodoroReward 1 user.currentStreak session.podId.isSome } else t) }) := by
      simp only [completeSession, h1, h2, Bool.false_eq_true, if_false, h3]
      rw [if_pos hcond]
      simp only [hca]
      exact finishSession_found st3 sid ta _ ids _ nowMs session hses3
    refine ⟨_, _, hrun, rfl, ?_, u', hg', ?_, ?_, ?_⟩
    · simp only [hcond, iff_true]
      exact lt_of_lt_of_le Int.one_pos (one_le_calculatePomodoroReward _ _)
    · simpa using hmin
    · intro _
      simpa using hpom
    · intro hn
      exact absurd hcond hn
  · have hu1 : getUser (updateUser st session.userId (fun u =>
        { u with totalFocusMinutes := user.totalFocusMinutes + ((nowMs : Int) - (session.startTime : Int)).fdiv 60000 })) session.userId =
        some { user with totalFocusMinutes := user.totalFocusMinutes + ((nowMs : Int) - (session.startTime : Int)).fdiv 60000 } :=
      getUser_updateUser_self st session.userId _ user (fun v => rfl) h3
    have hrun : completeSession st sid ta early nowMs =
        ((Except.ok { session := { session with completed := true, endTime := some nowMs, taskAction := ta, reward := 0 }, reward := 0, achievements := [], actualMinutes := ((nowMs : Int) - (session.startTime : Int)).fdiv 60000 }),
          { (updateUser st session.userId (fun u =>
              { u with totalFocusMinutes := user.totalFocusMinutes + ((nowMs : Int) - (session.startTime : Int)).fdiv 60000 })) with
            sessions := (updateUser st session.userId (fun u =>
              { u with totalFocusMinutes := user.totalFocusMinutes + ((nowMs : Int) - (session.startTime : Int)).fdiv 60000 })).sessions.map (fun t => if t.id == sid then { t with completed := true, endTime := some nowMs, taskAction := ta, reward := 0 } else t) }) := by
      simp only [completeSession, h1, h2, Bool.false_eq_true, if_false, h3]
      rw [if_neg hcond]
      exact finishSession_found _ sid ta 0 [] _ nowMs session h1
    refine ⟨_, _, hrun, rfl, ?_, _, hu1, rfl, ?_, ?_⟩
    · constructor
      · intro h0
        exact absurd h0 (lt_irrefl 0)
      · intro hc
        exact absurd hc hcond
    · intro hc
      exact absurd hc hcond
    · intro _
      exact ⟨rfl, rfl⟩

/-- Witness for C2: completing a 25-minute session after 25 elapsed
minutes, not flagged early, yields a positive reward. -/
theorem completeSession_reward_policy_witness :
    ∃ res st', completeSession stOpenW "s2" none false 1500000 = ((Except.ok res), st') ∧
      res.actualMinutes = ((1500000 : Int) - ((openSessionW.startTime : Nat) : Int)).fdiv 60000 ∧
      (0 < res.reward ↔
        ((9/10 : ℚ) ≤ (((((1500000 : Nat) : Int) - ((openSessionW.startTime : Nat) : Int)).fdiv 60000 : Int) : ℚ) / ((openSessionW.duration : Nat) : ℚ) ∨ false = false)) ∧
      ∃ u', getUser st' openSessionW.userId = some u' ∧
        u'.totalFocusMinutes = aliceW.totalFocusMinutes + (((1500000 : Nat) : Int) - ((openSessionW.startTime : Nat) : Int)).fdiv 60000 ∧
        (((9/10 : ℚ) ≤ (((((1500000 : Nat) : Int) - ((openSessionW.startTime : Nat) : Int)).fdiv 60000 : Int) : ℚ) / ((openSessionW.duration : Nat) : ℚ) ∨ false = false) →
          u'.totalPomodoros = aliceW.totalPomodoros + 1) ∧
        (¬((9/10 : ℚ) ≤ (((((1500000 : Nat) : Int) - ((openSessionW.startTime : Nat) : Int)).fdiv 60000 : Int) : ℚ) / ((openSessionW.duration : Nat) : ℚ) ∨ false = false) →
          res.reward = 0 ∧ u'.totalPomodoros = aliceW.totalPomodoros) :=
  completeSession_reward_policy stOpenW "s2" none false 1500000 openSessionW aliceW
    (by decide) rfl (by decide) (by decide)

set_option maxHeartbeats 2000000 in
/-- C4 counterexample: on the concrete store `stC4`, `completeSession` on
the previously cancelled session `"s1"` succeeds with reward 1 and marks it
completed (it does not fail), and `cancelPod` on the COMPLETED pod `"p1"`
stores status CANCELLED (it does not leave it COMPLETED) — refuting the
claim that terminal states are immutable as stated. -/
theorem terminal_states_counterexample :
    (completeSession stC4 "s1" none false 1500000).1.map CompleteResult.reward =
      Except.ok 1 ∧
    (getSession (completeSession stC4 "s1" none false 1500000).2 "s1").map
      PomodoroSession.completed = some true ∧
    getPod (cancelPod stC4 "p1").2 "p1" =
      some { completedPodW with status := PodStatus.cancelled } := by
  refine ⟨?_, ?_, ?_⟩
  · norm_num [completeSession, getSession, stC4, cancelledSessionW, getUser, aliceW,
      updateUser, updateUserStats, getUserStats, putUserStats, checkAchievements,
      checkAchievementsAux, checkAchievementRequirement, unlockAchievement,
      awardFocusCoins, createNotification, ACHIEVEMENTS, getUserPods, completedPodW,
      calculatePomodoroReward, jsRound, finishSession, updateSession, Except.map]
    decide
  · norm_num [completeSession, getSession, stC4, cancelledSessionW, getUser, aliceW,
      updateUser, updateUserStats, getUserStats, putUserStats, checkAchievements,
      checkAchievementsAux, checkAchievementRequirement, unlockAchievement,
      awardFocusCoins, createNotification, ACHIEVEMENTS, getUserPods, completedPodW,
      calculatePomodoroReward, jsRound, finishSession, updateSession]
    decide
  · decide

/-- C4 (amended): completed sessions are immutable — `completeSession`
rejects them with `alreadyCompleted` and leaves the store untouched — but
cancellation is not terminal: `cancelPod` unconditionally stores status
CANCELLED for any existing pod, including a COMPLETED one (and a cancelled
session, having `completed = false`, is accepted again by
`completeSession`, as the counterexample shows). -/
theorem terminal_states_amended :
    (∀ (st : Store) (sid : String) (ta : Option TaskAction) (early : Bool)
        (nowMs : Nat) (s : PomodoroSession),
        getSession st sid = some s → s.completed = true →
        completeSession st sid ta early nowMs =
          ((Except.error ServiceError.alreadyCompleted), st)) ∧
    (∀ (st : Store) (pid : String) (pod : Pod),
        getPod st pid = some pod →
        getPod (cancelPod st pid).2 pid =
          some { pod with status := PodStatus.cancelled }) := by
  constructor
  · intro st sid ta early nowMs s hs hc
    exact completeSession_alreadyCompleted st sid ta early nowMs s hs hc
  · intro st pid pod hp
    simp only [cancelPod, hp]
    have hpods : (cancelPodNotify pod pod.participants
        (updatePod st pid (fun p => { p with status := PodStatus.cancelled }))).pods =
        st.pods.map (fun p => if p.id == pid then { p with status := PodStatus.cancelled } else p) := by
      rw [(cancelPodNotify_frame pod pod.participants _).2.2]
      rfl
    show (cancelPodNotify pod pod.participants
        (updatePod st pid (fun p => { p with status := PodStatus.cancelled }))).pods.find?
        (fun p => p.id == pid) = _
    rw [hpods]
    rw [find?_map_pres _ _ (fun p => by cases hpd : (p.id == pid) <;> simp [hpd]) st.pods]
    have hp' : List.find? (fun p => p.id == pid) st.pods = some pod := hp
    rw [hp']
    have hpid : (pod.id == pid) = true := by
      have := List.find?_some hp'
      simpa using this
    show some (if (pod.id == pid) = true then { pod with status := PodStatus.cancelled } else pod) = _
    rw [if_pos hpid]

/-- Witness for the amended C4 at a concrete completed session. -/
theorem terminal_states_amended_witness :
    completeSession stDoneW "s3" none true 1500000 =
      ((Except.error ServiceError.alreadyCompleted), stDoneW) :=
  terminal_states_amended.1 stDoneW "s3" none true 1500000 completedSessionW (by decide) rfl

/-- C8: the invite code stored by `createPod` is the hex encoding of the
4 random bytes with no uniqueness check: on a store already holding a pod
with code "AABBCCDD", drawing the bytes AA BB CC DD stores a second pod
with the very same code. -/
theorem createPod_duplicate_invite_code :
    completedPodW.inviteCode = "AABBCCDD" ∧
    ((createPod stC8 "u1" "Alice" 25 none "p2" [0xAA, 0xBB, 0xCC, 0xDD]).2.pods.map
      Pod.inviteCode) = ["AABBCCDD", "AABBCCDD"] := by
  decide

/-- C9 counterexample: a user whose streak is 4 (past the threshold 3
without currently equalling it) is retroactively granted `focus_streak_3`
by the generic `checkAchievements` sweep — refuting the claim that the
sweep unlocks streak achievements only on exact threshold match. -/
theorem streak_sweep_counterexample :
    (checkAchievements stC9 "u9").1 = Except.ok ["focus_streak_3"] ∧
    (getUser (checkAchievements stC9 "u9").2 "u9").map User.achievements =
      some ["focus_streak_3"] := by
  decide

/-- C9 (amended): only the post-update check inside `updateStreak`
(`checkStreakAchievements`) matches the threshold exactly — at streak 4 it
attempts nothing — while the generic sweep's requirement check for
streak-type achievements is `threshold ≤ currentStreak`, so the sweep does
retroactively unlock passed thresholds. -/
theorem streak_exact_vs_ge_amended :
    (∀ (st : Store) (uid : String), checkStreakAchievements st uid 4 = ((Except.ok ()), st)) ∧
    (∀ (st : Store) (user : User) (a : Achievement),
        a.requirement.type = ReqType.streak →
        (checkAchievementRequirement st user a = true ↔
          a.requirement.count ≤ user.currentStreak)) := by
  constructor
  · intro st uid
    rfl
  · intro st user a h
    simp [checkAchievementRequirement, h]

/-- Witness for the amended C9: the sweep requirement for `focus_streak_3`
holds at streak 4 because 3 ≤ 4. -/
theorem streak_exact_vs_ge_amended_witness :
    checkAchievementRequirement stC9 streakUserW focusStreak3W = true ↔
      focusStreak3W.requirement.count ≤ streakUserW.currentStreak :=
  streak_exact_vs_ge_amended.2 stC9 streakUserW focusStreak3W rfl

end MaxFocus
